import Mathlib

/-!
Shallow embedding of the sudoku solver in `solve_sudoku.c` (repository
tfpf/solve-sudoku), together with theorems checking the natural-language
specification against it.

The C program works on `int table[9][9]`, mutated in place.  Every value the
program ever stores in a cell lies in 0..9 (`0` encodes a blank), so a grid
state is embedded as a natural number whose base-10 digit at position
`9*i + j` is the value of `table[i][j]`; `cell` is the rvalue `table[i][j]`
and the in-place assignment `table[r][c] = v` becomes the digit splice
`update`.  `ofCells` builds such a number from the row-major list of cell
values, so concrete grids below remain readable.  Every loop of the C source
is transcribed as a fold / `List.all` / `List.filter` over the same index
range, in the same iteration order.
-/

namespace SolveSudoku

/-- A state of `int table[9][9]`: the base-10 digit of `g` at position
`9*i + j` is the value of `table[i][j]`; 0 is a blank. -/
abbrev Grid := Nat

/-- The rvalue `table[i][j]`. -/
def cell (g : Grid) (i j : Nat) : Nat := g / 10 ^ (9 * i + j) % 10

/-- The assignment `table[r][c] = v` (for `v ≤ 9`): splice the digit `v`
into position `9*r + c`, keeping the lower and higher digits. -/
def update (g : Grid) (r c v : Nat) : Grid :=
  g % 10 ^ (9 * r + c) + v * 10 ^ (9 * r + c) +
    g / 10 ^ (9 * r + c + 1) * 10 ^ (9 * r + c + 1)

/-- Build a grid from the row-major list of its 81 cell values. -/
def ofCells (l : List Nat) : Grid := l.foldr (fun d acc => d + 10 * acc) 0

/-- The 81 cell coordinates in row-major order, matching the nested
`for(i...) for(j...)` loops of the C source. -/
def cells : List (Nat × Nat) :=
  (List.range 9).flatMap (fun i => (List.range 9).map (fun j => (i, j)))

/-- Transcription of `number_of_empty_cells`: count the cells filled with zeros. -/
def number_of_empty_cells (g : Grid) : Nat :=
  cells.countP (fun p => cell g p.1 p.2 == 0)

/-- Transcription of `allowed_in_row`: `true` iff `num` is not in row `row`. -/
def allowed_in_row (g : Grid) (row num : Nat) : Bool :=
  (List.range 9).all (fun j => cell g row j != num)

/-- Transcription of `allowed_in_col`: `true` iff `num` is not in column `col`. -/
def allowed_in_col (g : Grid) (col num : Nat) : Bool :=
  (List.range 9).all (fun i => cell g i col != num)

/-- Transcription of `allowed_in_block`: scan the 3×3 block containing (row, col), but skip
any position sharing its row index with `row` or its column index with
`col`. -/
def allowed_in_block (g : Grid) (row col num : Nat) : Bool :=
  let block_row_start := row - row % 3
  let block_col_start := col - col % 3
  (List.range' block_row_start 3).all (fun i =>
    (List.range' block_col_start 3).all (fun j =>
      if i ≠ row ∧ j ≠ col then cell g i j != num else true))

/-- Transcription of `allowed_at_position`: conjunction of the row, column and block checks. -/
def allowed_at_position (g : Grid) (row col num : Nat) : Bool :=
  allowed_in_row g row num && allowed_in_col g col num && allowed_in_block g row col num

/-- The numbers 1..9 allowed at (row, col), in increasing order.  The loop
of `select_allowed` computes exactly the length of this list
(`count_allowed`) and its last element (`allowed`, the most recent hit). -/
def allowed_list (g : Grid) (row col : Nat) : List Nat :=
  (List.range' 1 9).filter (fun num => allowed_at_position g row col num)

/-- Transcription of `select_allowed`: if exactly one number is allowed at (row, col) — or at
least one, when `assign_random` is set — store the last allowed number. -/
def select_allowed (g : Grid) (row col : Nat) (assign_random : Bool) : Grid :=
  let al := allowed_list g row col
  if al.length = 1 ∨ (1 ≤ al.length ∧ assign_random = true) then
    update g row col (al.getLastD 0)
  else g

/-- Transcription of `select_possible_in_row`: if `num` fits in exactly one cell of row
`row`, store it there (at the column of the most recent hit of the scan). -/
def select_possible_in_row (g : Grid) (row num : Nat) : Grid :=
  if allowed_in_row g row num then
    let poss := (List.range 9).filter (fun j =>
      cell g row j == 0 && allowed_in_col g j num && allowed_in_block g row j num)
    if poss.length = 1 then update g row (poss.getLastD 0) num else g
  else g

/-- Transcription of `select_possible_in_col`: column analogue of `select_possible_in_row`. -/
def select_possible_in_col (g : Grid) (col num : Nat) : Grid :=
  if allowed_in_col g col num then
    let poss := (List.range 9).filter (fun i =>
      cell g i col == 0 && allowed_in_row g i num && allowed_in_block g i col num)
    if poss.length = 1 then update g (poss.getLastD 0) col num else g
  else g

/-- Transcription of `select_possible_in_block`: block analogue; (row, col) is the first cell
of a block, one of 0, 3, 6 each. -/
def select_possible_in_block (g : Grid) (row col num : Nat) : Grid :=
  if allowed_in_block g row col num then
    let poss := ((List.range' row 3).flatMap (fun i =>
        (List.range' col 3).map (fun j => (i, j)))).filter (fun p =>
      cell g p.1 p.2 == 0 && allowed_at_position g p.1 p.2 num)
    if poss.length = 1 then update g (poss.getLastD (0, 0)).1 (poss.getLastD (0, 0)).2 num
    else g
  else g

/-- Transcription of `select_possible`: all rows, then all columns, then all blocks. -/
def select_possible (g : Grid) (num : Nat) : Grid :=
  let g1 := (List.range 9).foldl (fun h i => select_possible_in_row h i num) g
  let g2 := (List.range 9).foldl (fun h j => select_possible_in_col h j num) g1
  ([0, 3, 6] : List Nat).foldl (fun h i =>
    ([0, 3, 6] : List Nat).foldl (fun h2 j => select_possible_in_block h2 i j num) h) g2

/-- One step of the first loop of `single_pass`: on a blank cell, run
`select_allowed` and then clear `assign_random` unconditionally. -/
def passCell (p : Grid × Bool) (q : Nat × Nat) : Grid × Bool :=
  if cell p.1 q.1 q.2 == 0 then (select_allowed p.1 q.1 q.2 p.2, false) else p

/-- Transcription of `single_pass`: sweep all cells in row-major order applying
`select_allowed` to the blank ones, then `select_possible` for 1..9. -/
def single_pass (g : Grid) (assign_random : Bool) : Grid :=
  let ga := (cells.foldl passCell (g, assign_random)).1
  (List.range' 1 9).foldl (fun h num => select_possible h num) ga

/-- The `while(true)` loop of `solve`, with explicit fuel.  Iteration state:
the grid, `prev_zeros`, and `assign_random`.  The loop breaks when no cell
is empty, or when the blank count did not change while `assign_random` was
already set; a blank count equal to `prev_zeros` sets `assign_random` (and
it is never cleared). -/
def solveLoop : Nat → Grid → Nat → Bool → Grid
  | 0, g, _, _ => g
  | fuel + 1, g, prev_zeros, assign_random =>
    let zeros := number_of_empty_cells g
    if zeros = 0 then g
    else if zeros = prev_zeros ∧ assign_random = true then g
    else
      let ar := if zeros = prev_zeros then true else assign_random
      solveLoop fuel (single_pass g ar) zeros ar

/-- Number of `single_pass` calls the loop performs before breaking (or
before running out of fuel). -/
def solveSteps : Nat → Grid → Nat → Bool → Nat
  | 0, _, _, _ => 0
  | fuel + 1, g, prev_zeros, assign_random =>
    let zeros := number_of_empty_cells g
    if zeros = 0 then 0
    else if zeros = prev_zeros ∧ assign_random = true then 0
    else
      let ar := if zeros = prev_zeros then true else assign_random
      solveSteps fuel (single_pass g ar) zeros ar + 1

/-- Returns `true` iff the loop reaches one of its `break` statements within the
given fuel (`false` means the fuel ran out first). -/
def solveHalts : Nat → Grid → Nat → Bool → Bool
  | 0, _, _, _ => false
  | fuel + 1, g, prev_zeros, assign_random =>
    let zeros := number_of_empty_cells g
    if zeros = 0 then true
    else if zeros = prev_zeros ∧ assign_random = true then true
    else
      let ar := if zeros = prev_zeros then true else assign_random
      solveHalts fuel (single_pass g ar) zeros ar

/-- Observation trace of the loop: for each `single_pass` call, the blank
count computed just before it and the `assign_random` value passed to it. -/
def solveTrace : Nat → Grid → Nat → Bool → List (Nat × Bool)
  | 0, _, _, _ => []
  | fuel + 1, g, prev_zeros, assign_random =>
    let zeros := number_of_empty_cells g
    if zeros = 0 then []
    else if zeros = prev_zeros ∧ assign_random = true then []
    else
      let ar := if zeros = prev_zeros then true else assign_random
      (zeros, ar) :: solveTrace fuel (single_pass g ar) zeros ar

/-- Transcription of `solve`: run the loop from `prev_zeros = 81`, `assign_random = false`.
Fuel 85 is enough for the loop to reach a `break` on every input, so this
equals the C loop (which carries no fuel). -/
def solve (g : Grid) : Grid := solveLoop 85 g 81 false

/-- Number of deduction passes `solve` executes. -/
def solvePasses (g : Grid) : Nat := solveSteps 85 g 81 false

/-- Transcription of `valid`: every cell holds 1..9, and (then) every row, column and block
holds each value exactly once (the C code compares a frequency array built
from the unit's cells against `{1,1,1,1,1,1,1,1,1}`). -/
def valid (g : Grid) : Bool :=
  (cells.all (fun p => 1 ≤ cell g p.1 p.2 && cell g p.1 p.2 ≤ 9)) &&
  ((List.range 9).all (fun i => (List.range' 1 9).all (fun d =>
    (List.range 9).countP (fun j => cell g i j == d) == 1))) &&
  ((List.range 9).all (fun j => (List.range' 1 9).all (fun d =>
    (List.range 9).countP (fun i => cell g i j == d) == 1))) &&
  (([0, 3, 6] : List Nat).all (fun bi => ([0, 3, 6] : List Nat).all (fun bj =>
    (List.range' 1 9).all (fun d =>
      ((List.range' bi 3).flatMap (fun k =>
        (List.range' bj 3).map (fun l => (k, l)))).countP
          (fun p => cell g p.1 p.2 == d) == 1))))

/-- The first blank cell of the grid in row-major order, if any. -/
def firstBlank (g : Grid) : Option (Nat × Nat) :=
  cells.find? (fun p => cell g p.1 p.2 == 0)

/-- Frame relation of one engine step: non-blank cells keep their values,
blank cells stay blank or receive a value in 1..9, and the digits above the
81 cell positions are untouched. -/
def Preserve (g g2 : Grid) : Prop :=
  (∀ i j, i < 9 → j < 9 → cell g i j ≠ 0 → cell g2 i j = cell g i j) ∧
  (∀ i j, i < 9 → j < 9 → cell g i j = 0 →
    cell g2 i j = 0 ∨ (1 ≤ cell g2 i j ∧ cell g2 i j ≤ 9)) ∧
  g2 / 10 ^ 81 = g / 10 ^ 81

/-- Upper bound on the number of remaining `single_pass` calls of the loop,
as a function of its iteration state. -/
def loopBound (g : Grid) (prev : Nat) (b : Bool) : Nat :=
  if number_of_empty_cells g = 0 then 0
  else if number_of_empty_cells g = prev then
    (if b then 0 else number_of_empty_cells g + 2)
  else (if b then number_of_empty_cells g + 1 else number_of_empty_cells g + 3)

/-- Rendering of the specification's validity property: every cell holds a
number 1..9, and every row, column and block contains each number 1..9
exactly once. -/
def ValidSpec (g : Grid) : Prop :=
  (∀ i j, i < 9 → j < 9 → 1 ≤ cell g i j ∧ cell g i j ≤ 9) ∧
  (∀ i d, i < 9 → 1 ≤ d → d ≤ 9 → ∃! j, j < 9 ∧ cell g i j = d) ∧
  (∀ j d, j < 9 → 1 ≤ d → d ≤ 9 → ∃! i, i < 9 ∧ cell g i j = d) ∧
  (∀ bi bj d, (bi = 0 ∨ bi = 3 ∨ bi = 6) → (bj = 0 ∨ bj = 3 ∨ bj = 6) →
    1 ≤ d → d ≤ 9 →
    ∃! p : Nat × Nat, (bi ≤ p.1 ∧ p.1 < bi + 3 ∧ bj ≤ p.2 ∧ p.2 < bj + 3) ∧
      cell g p.1 p.2 = d)

/-! Concrete grids used by counterexamples and witnesses. -/

/-- The all-blank grid (81 empty cells). -/
def emptyGrid : Grid := 0

/-- A completed, valid sudoku grid (row `i` is the cyclic sequence starting
at `(3*i + i/3) % 9 + 1`). -/
def fullGrid : Grid := ofCells
  [1, 2, 3, 4, 5, 6, 7, 8, 9,
   4, 5, 6, 7, 8, 9, 1, 2, 3,
   7, 8, 9, 1, 2, 3, 4, 5, 6,
   2, 3, 4, 5, 6, 7, 8, 9, 1,
   5, 6, 7, 8, 9, 1, 2, 3, 4,
   8, 9, 1, 2, 3, 4, 5, 6, 7,
   3, 4, 5, 6, 7, 8, 9, 1, 2,
   6, 7, 8, 9, 1, 2, 3, 4, 5,
   9, 1, 2, 3, 4, 5, 6, 7, 8]

/-- Grid equal to `fullGrid` with the four cells (0,0), (0,1), (3,0), (3,1) blanked: the
first blank cell (0,0) has the two allowed numbers 1 and 2. -/
def rectGrid : Grid := ofCells
  [0, 0, 3, 4, 5, 6, 7, 8, 9,
   4, 5, 6, 7, 8, 9, 1, 2, 3,
   7, 8, 9, 1, 2, 3, 4, 5, 6,
   0, 0, 4, 5, 6, 7, 8, 9, 1,
   5, 6, 7, 8, 9, 1, 2, 3, 4,
   8, 9, 1, 2, 3, 4, 5, 6, 7,
   3, 4, 5, 6, 7, 8, 9, 1, 2,
   6, 7, 8, 9, 1, 2, 3, 4, 5,
   9, 1, 2, 3, 4, 5, 6, 7, 8]

/-- A grid on which `solve` gives up while blank cells with nonempty allowed
sets remain: row 0 is `- 1 2 3 4 5 6 7 8`, cell (1,0) is 9, the other 72
cells are blank.  Cell (0,0), the first blank, allows no number at all. -/
def stuckGrid : Grid := ofCells
  [0, 1, 2, 3, 4, 5, 6, 7, 8,
   9, 0, 0, 0, 0, 0, 0, 0, 0,
   0, 0, 0, 0, 0, 0, 0, 0, 0,
   0, 0, 0, 0, 0, 0, 0, 0, 0,
   0, 0, 0, 0, 0, 0, 0, 0, 0,
   0, 0, 0, 0, 0, 0, 0, 0, 0,
   0, 0, 0, 0, 0, 0, 0, 0, 0,
   0, 0, 0, 0, 0, 0, 0, 0, 0,
   0, 0, 0, 0, 0, 0, 0, 0, 0]

/-! Digit arithmetic: how `cell` reads through `update`. -/

theorem cell_lt_10 (g : Grid) (i j : Nat) : cell g i j < 10 :=
  Nat.mod_lt _ (by omega)

theorem update_div_of_lt (g : Grid) (r c v m : Nat) (hv : v ≤ 9)
    (hm : 9 * r + c < m) : update g r c v / 10 ^ m = g / 10 ^ m := by
  unfold update
  obtain ⟨d, hd⟩ : ∃ d, m = (9 * r + c + 1) + d := ⟨m - (9 * r + c + 1), by omega⟩
  subst hd
  set k := 9 * r + c with hk
  have hP : 0 < 10 ^ k := Nat.pos_pow_of_pos k (by omega)
  have hA : g % 10 ^ k + v * 10 ^ k < 10 ^ (k + 1) := by
    have h1 : g % 10 ^ k < 10 ^ k := Nat.mod_lt _ hP
    have h2 : v * 10 ^ k ≤ 9 * 10 ^ k := Nat.mul_le_mul_right _ hv
    calc g % 10 ^ k + v * 10 ^ k < 10 ^ k + v * 10 ^ k := Nat.add_lt_add_right h1 _
      _ ≤ 10 ^ k + 9 * 10 ^ k := Nat.add_le_add_left h2 _
      _ = 10 ^ (k + 1) := by rw [pow_succ]; ring
  have step : (g % 10 ^ k + v * 10 ^ k + g / 10 ^ (k + 1) * 10 ^ (k + 1)) / 10 ^ (k + 1)
      = g / 10 ^ (k + 1) := by
    rw [Nat.add_mul_div_right _ _ (Nat.pos_pow_of_pos (k + 1) (by omega)),
      Nat.div_eq_of_lt hA, Nat.zero_add]
  calc (g % 10 ^ k + v * 10 ^ k + g / 10 ^ (k + 1) * 10 ^ (k + 1)) / 10 ^ (k + 1 + d)
      = (g % 10 ^ k + v * 10 ^ k + g / 10 ^ (k + 1) * 10 ^ (k + 1)) / 10 ^ (k + 1) / 10 ^ d := by
        rw [Nat.div_div_eq_div_mul, ← pow_add]
    _ = g / 10 ^ (k + 1) / 10 ^ d := by rw [step]
    _ = g / 10 ^ (k + 1 + d) := by rw [Nat.div_div_eq_div_mul, ← pow_add]

theorem cell_update (g : Grid) (r c v i j : Nat) (hv : v ≤ 9) :
    cell (update g r c v) i j = if 9 * i + j = 9 * r + c then v else cell g i j := by
  rcases Nat.lt_trichotomy (9 * i + j) (9 * r + c) with hlt | heq | hgt
  · -- the queried digit is below the spliced one
    rw [if_neg (by omega)]
    unfold cell update
    set m := 9 * i + j with hm
    obtain ⟨d, hd⟩ : ∃ d, 9 * r + c = m + (d + 1) := ⟨9 * r + c - m - 1, by omega⟩
    rw [hd]
    have hP : 0 < 10 ^ m := Nat.pos_pow_of_pos m (by omega)
    have e1 : (10 : Nat) ^ (m + (d + 1)) = 10 ^ m * 10 ^ (d + 1) := pow_add 10 m (d + 1)
    have e2 : (10 : Nat) ^ (m + (d + 1) + 1) = 10 ^ m * 10 ^ (d + 2) := by
      rw [show m + (d + 1) + 1 = m + (d + 2) by omega]; exact pow_add 10 m (d + 2)
    rw [e1, e2]
    have shape : g % (10 ^ m * 10 ^ (d + 1)) + v * (10 ^ m * 10 ^ (d + 1)) +
        g / (10 ^ m * 10 ^ (d + 2)) * (10 ^ m * 10 ^ (d + 2))
        = g % (10 ^ m * 10 ^ (d + 1)) +
          (v * 10 ^ (d + 1) + g / (10 ^ m * 10 ^ (d + 2)) * 10 ^ (d + 2)) * 10 ^ m := by ring
    rw [shape, Nat.add_mul_div_right _ _ hP]
    have kill : (v * 10 ^ (d + 1) + g / (10 ^ m * 10 ^ (d + 2)) * 10 ^ (d + 2))
        = (v * 10 ^ d + g / (10 ^ m * 10 ^ (d + 2)) * 10 ^ (d + 1)) * 10 := by ring
    rw [kill, Nat.add_mul_mod_self_right]
    -- remains: g % (10^m * 10^(d+1)) / 10^m % 10 = g / 10^m % 10
    conv_rhs => rw [← Nat.mod_add_div g (10 ^ m * 10 ^ (d + 1))]
    have shape2 : g % (10 ^ m * 10 ^ (d + 1)) + 10 ^ m * 10 ^ (d + 1) *
        (g / (10 ^ m * 10 ^ (d + 1)))
        = g % (10 ^ m * 10 ^ (d + 1)) + (10 ^ (d + 1) * (g / (10 ^ m * 10 ^ (d + 1)))) * 10 ^ m := by
      ring
    rw [shape2, Nat.add_mul_div_right _ _ hP]
    have kill2 : 10 ^ (d + 1) * (g / (10 ^ m * 10 ^ (d + 1)))
        = (10 ^ d * (g / (10 ^ m * 10 ^ (d + 1)))) * 10 := by ring
    rw [kill2, Nat.add_mul_mod_self_right]
  · -- the queried digit is the spliced one
    rw [if_pos heq]
    unfold cell update
    rw [heq]
    set k := 9 * r + c with hk
    have hP : 0 < 10 ^ k := Nat.pos_pow_of_pos k (by omega)
    have e2 : (10 : Nat) ^ (k + 1) = 10 ^ k * 10 := pow_succ 10 k
    rw [e2]
    have shape : g % 10 ^ k + v * 10 ^ k + g / (10 ^ k * 10) * (10 ^ k * 10)
        = g % 10 ^ k + (v + g / (10 ^ k * 10) * 10) * 10 ^ k := by ring
    rw [shape, Nat.add_mul_div_right _ _ hP, Nat.div_eq_of_lt (Nat.mod_lt _ hP),
      Nat.zero_add, Nat.add_mul_mod_self_right, Nat.mod_eq_of_lt (by omega)]
  · -- the queried digit is above the spliced one
    rw [if_neg (by omega)]
    unfold cell
    rw [update_div_of_lt g r c v _ hv hgt]

/-- The coordinate pairs enumerated by `cells` are exactly those with both
components below 9. -/
theorem mem_cells {p : Nat × Nat} : p ∈ cells ↔ p.1 < 9 ∧ p.2 < 9 := by
  obtain ⟨i, j⟩ := p
  constructor
  · intro h
    simp only [cells, List.mem_flatMap, List.mem_map, List.mem_range] at h
    obtain ⟨a, ha, b, hb, hab⟩ := h
    cases hab
    exact ⟨ha, hb⟩
  · intro ⟨hi, hj⟩
    simp only [cells, List.mem_flatMap, List.mem_map, List.mem_range]
    exact ⟨i, hi, j, hj, rfl⟩

/-- Two grids that agree on all 81 cells and on the digits above them are
equal. -/
theorem grid_ext {a b : Grid}
    (hcell : ∀ i j, i < 9 → j < 9 → cell a i j = cell b i j)
    (hhigh : a / 10 ^ 81 = b / 10 ^ 81) : a = b := by
  have key : ∀ K, K ≤ 81 → a % 10 ^ K = b % 10 ^ K := by
    intro K
    induction K with
    | zero => intro _; simp [Nat.mod_one]
    | succ n ih =>
      intro h
      rw [pow_succ, Nat.mod_mul, Nat.mod_mul, ih (by omega)]
      have hd := hcell (n / 9) (n % 9) (by omega) (by omega)
      unfold cell at hd
      rw [show 9 * (n / 9) + n % 9 = n by omega] at hd
      rw [hd]
  calc a = a % 10 ^ 81 + 10 ^ 81 * (a / 10 ^ 81) := (Nat.mod_add_div a _).symm
    _ = b % 10 ^ 81 + 10 ^ 81 * (b / 10 ^ 81) := by rw [key 81 le_rfl, hhigh]
    _ = b := Nat.mod_add_div b _

/-- The last element of a nonempty list is one of its elements. -/
theorem getLastD_mem {α : Type} (l : List α) (d : α) (h : l ≠ []) :
    l.getLastD d ∈ l := by
  induction l with
  | nil => exact absurd rfl h
  | cons a l ih =>
    cases l with
    | nil => simp
    | cons b t =>
      rw [List.getLastD_cons]
      exact List.mem_cons_of_mem a (ih (by simp))

theorem preserve_refl (g : Grid) : Preserve g g :=
  ⟨fun _ _ _ _ _ => rfl, fun _ _ _ _ h => Or.inl h, rfl⟩

theorem preserve_trans {g g2 g3 : Grid} (h12 : Preserve g g2) (h23 : Preserve g2 g3) :
    Preserve g g3 := by
  refine ⟨fun i j hi hj hne => ?_, fun i j hi hj hz => ?_, h23.2.2.trans h12.2.2⟩
  · rw [h23.1 i j hi hj (by rw [h12.1 i j hi hj hne]; exact hne), h12.1 i j hi hj hne]
  · rcases h12.2.1 i j hi hj hz with h0 | h19
    · exact h23.2.1 i j hi hj h0
    · rw [h23.1 i j hi hj (by omega)]
      exact Or.inr h19

theorem preserve_update {g : Grid} {r c v : Nat} (hr : r < 9) (hc : c < 9)
    (hblank : cell g r c = 0) (hv1 : 1 ≤ v) (hv9 : v ≤ 9) :
    Preserve g (update g r c v) := by
  refine ⟨fun i j hi hj hne => ?_, fun i j hi hj hz => ?_,
    update_div_of_lt g r c v 81 hv9 (by omega)⟩
  · rw [cell_update g r c v i j hv9, if_neg]
    intro he
    obtain ⟨rfl, rfl⟩ : i = r ∧ j = c := by omega
    exact hne hblank
  · rw [cell_update g r c v i j hv9]
    split
    · exact Or.inr ⟨hv1, hv9⟩
    · exact Or.inl hz

/-- Members of `allowed_list` are numbers in 1..9. -/
theorem allowed_list_mem_bounds {g : Grid} {row col x : Nat}
    (hx : x ∈ allowed_list g row col) : 1 ≤ x ∧ x ≤ 9 := by
  have := List.mem_of_mem_filter hx
  rw [List.mem_range'_1] at this
  omega

theorem preserve_select_allowed {g : Grid} {r c : Nat} (hr : r < 9) (hc : c < 9)
    (hblank : cell g r c = 0) (b : Bool) : Preserve g (select_allowed g r c b) := by
  unfold select_allowed
  dsimp only
  split
  · rename_i hcond
    have hne : allowed_list g r c ≠ [] := by
      intro he
      rw [he] at hcond
      simp at hcond
    have hmem := getLastD_mem _ 0 hne
    have hb := allowed_list_mem_bounds hmem
    exact preserve_update hr hc hblank hb.1 hb.2
  · exact preserve_refl g

theorem preserve_select_possible_in_row {g : Grid} {row num : Nat} (hrow : row < 9)
    (h1 : 1 ≤ num) (h9 : num ≤ 9) : Preserve g (select_possible_in_row g row num) := by
  unfold select_possible_in_row
  dsimp only
  split
  · split
    · rename_i hlen
      set poss := (List.range 9).filter (fun j =>
        cell g row j == 0 && allowed_in_col g j num && allowed_in_block g row j num) with hposs
      have hne : poss ≠ [] := by intro e; rw [e] at hlen; simp at hlen
      have hmem := getLastD_mem poss 0 hne
      have hcol : poss.getLastD 0 < 9 := by
        have := List.mem_of_mem_filter hmem
        rw [List.mem_range] at this
        exact this
      have hblank : cell g row (poss.getLastD 0) = 0 := by
        have := List.of_mem_filter hmem
        simp only [Bool.and_eq_true, beq_iff_eq] at this
        exact this.1.1
      exact preserve_update hrow hcol hblank h1 h9
    · exact preserve_refl g
  · exact preserve_refl g

theorem preserve_select_possible_in_col {g : Grid} {col num : Nat} (hcol : col < 9)
    (h1 : 1 ≤ num) (h9 : num ≤ 9) : Preserve g (select_possible_in_col g col num) := by
  unfold select_possible_in_col
  dsimp only
  split
  · split
    · rename_i hlen
      set poss := (List.range 9).filter (fun i =>
        cell g i col == 0 && allowed_in_row g i num && allowed_in_block g i col num) with hposs
      have hne : poss ≠ [] := by intro e; rw [e] at hlen; simp at hlen
      have hmem := getLastD_mem poss 0 hne
      have hrow : poss.getLastD 0 < 9 := by
        have := List.mem_of_mem_filter hmem
        rw [List.mem_range] at this
        exact this
      have hblank : cell g (poss.getLastD 0) col = 0 := by
        have := List.of_mem_filter hmem
        simp only [Bool.and_eq_true, beq_iff_eq] at this
        exact this.1.1
      exact preserve_update hrow hcol hblank h1 h9
    · exact preserve_refl g
  · exact preserve_refl g

theorem preserve_select_possible_in_block {g : Grid} {row col num : Nat}
    (hrow : row + 3 ≤ 9) (hcol : col + 3 ≤ 9) (h1 : 1 ≤ num) (h9 : num ≤ 9) :
    Preserve g (select_possible_in_block g row col num) := by
  unfold select_possible_in_block
  dsimp only
  split
  · split
    · rename_i hlen
      set poss := ((List.range' row 3).flatMap (fun i =>
          (List.range' col 3).map (fun j => (i, j)))).filter (fun p =>
        cell g p.1 p.2 == 0 && allowed_at_position g p.1 p.2 num) with hposs
      have hne : poss ≠ [] := by intro e; rw [e] at hlen; simp at hlen
      have hmem := getLastD_mem poss (0, 0) hne
      have hbounds : (poss.getLastD (0, 0)).1 < 9 ∧ (poss.getLastD (0, 0)).2 < 9 := by
        have hm := List.mem_of_mem_filter hmem
        simp only [List.mem_flatMap, List.mem_map, List.mem_range'_1] at hm
        obtain ⟨a, ha, b, hb, hab⟩ := hm
        rw [← hab]
        exact ⟨by omega, by omega⟩
      have hblank : cell g (poss.getLastD (0, 0)).1 (poss.getLastD (0, 0)).2 = 0 := by
        have := List.of_mem_filter hmem
        simp only [Bool.and_eq_true, beq_iff_eq] at this
        exact this.1
      exact preserve_update hbounds.1 hbounds.2 hblank h1 h9
    · exact preserve_refl g
  · exact preserve_refl g

theorem preserve_foldl {α : Type} (f : Grid → α → Grid) (l : List α) (g : Grid)
    (h : ∀ (x : Grid) a, a ∈ l → Preserve x (f x a)) : Preserve g (l.foldl f g) := by
  induction l generalizing g with
  | nil => exact preserve_refl g
  | cons a t ih =>
    rw [List.foldl_cons]
    exact preserve_trans (h g a (List.mem_cons_self a t))
      (ih (f g a) (fun x b hb => h x b (List.mem_cons_of_mem a hb)))

theorem preserve_select_possible {g : Grid} {num : Nat} (h1 : 1 ≤ num) (h9 : num ≤ 9) :
    Preserve g (select_possible g num) := by
  unfold select_possible
  refine preserve_trans (preserve_trans
    (preserve_foldl _ _ g fun x a ha => ?_) (preserve_foldl _ _ _ fun x a ha => ?_))
    (preserve_foldl _ _ _ fun x a ha => ?_)
  · exact preserve_select_possible_in_row (List.mem_range.1 ha) h1 h9
  · exact preserve_select_possible_in_col (List.mem_range.1 ha) h1 h9
  · refine preserve_foldl _ _ _ fun y b hb => ?_
    have hA : a = 0 ∨ a = 3 ∨ a = 6 := by simpa using ha
    have hB : b = 0 ∨ b = 3 ∨ b = 6 := by simpa using hb
    exact preserve_select_possible_in_block (by omega) (by omega) h1 h9

theorem preserve_passA : ∀ (l : List (Nat × Nat)) (g : Grid) (b : Bool),
    (∀ p ∈ l, p.1 < 9 ∧ p.2 < 9) → Preserve g ((l.foldl passCell (g, b)).1) := by
  intro l
  induction l with
  | nil => intro g b _; exact preserve_refl g
  | cons q t ih =>
    intro g b hl
    rw [List.foldl_cons]
    have hq := hl q (List.mem_cons_self q t)
    have ht := fun p hp => hl p (List.mem_cons_of_mem q hp)
    unfold passCell
    split
    · rename_i hz
      rw [beq_iff_eq] at hz
      exact preserve_trans (preserve_select_allowed hq.1 hq.2 hz b) (ih _ false ht)
    · exact ih g b ht

theorem preserve_single_pass (g : Grid) (b : Bool) : Preserve g (single_pass g b) := by
  unfold single_pass
  refine preserve_trans (preserve_passA cells g b fun p hp => mem_cells.1 hp)
    (preserve_foldl _ _ _ fun x a ha => ?_)
  rw [List.mem_range'_1] at ha
  exact preserve_select_possible (by omega) (by omega)

theorem preserve_solveLoop : ∀ (fuel : Nat) (g : Grid) (prev : Nat) (b : Bool),
    Preserve g (solveLoop fuel g prev b) := by
  intro fuel
  induction fuel with
  | zero => intro g prev b; exact preserve_refl g
  | succ n ih =>
    intro g prev b
    unfold solveLoop
    dsimp only
    split
    · exact preserve_refl g
    · split
      · exact preserve_refl g
      · exact preserve_trans (preserve_single_pass g _) (ih _ _ _)

end SolveSudoku

namespace SolveSudoku

/-- Counting strictly drops when a pointwise-stronger predicate loses a
witness. -/
theorem countP_lt_of_witness {α : Type} (l : List α) (p q : α → Bool)
    (hmono : ∀ a ∈ l, q a = true → p a = true) (a0 : α) (ha0 : a0 ∈ l)
    (hp : p a0 = true) (hq : q a0 = false) : l.countP q < l.countP p := by
  induction l with
  | nil => cases ha0
  | cons a t ih =>
    rw [List.countP_cons, List.countP_cons]
    have hmt : ∀ b ∈ t, q b = true → p b = true :=
      fun b hb => hmono b (List.mem_cons_of_mem a hb)
    rcases List.mem_cons.1 ha0 with rfl | hmem
    · rw [if_pos hp, if_neg (by simp [hq])]
      have := List.countP_mono_left hmt
      omega
    · have hqa : (if q a = true then 1 else 0) ≤ (if p a = true then 1 else 0) := by
        by_cases h : q a = true
        · rw [if_pos h, if_pos (hmono a (List.mem_cons_self a t) h)]
        · rw [if_neg h]; omega
      have := ih hmt hmem
      omega

theorem zeros_le_81 (g : Grid) : number_of_empty_cells g ≤ 81 := by
  calc number_of_empty_cells g ≤ cells.length := List.countP_le_length _
    _ = 81 := by rfl

theorem zeros_mono {g g2 : Grid} (h : Preserve g g2) :
    number_of_empty_cells g2 ≤ number_of_empty_cells g := by
  refine List.countP_mono_left fun p hp hq => ?_
  have hb := mem_cells.1 hp
  rw [beq_iff_eq] at hq ⊢
  by_contra hne
  exact absurd (h.1 p.1 p.2 hb.1 hb.2 hne ▸ hq) hne

/-- A pass that does not change the blank count changes nothing at all. -/
theorem single_pass_eq_of_zeros_eq {g : Grid} {b : Bool}
    (hz : number_of_empty_cells (single_pass g b) = number_of_empty_cells g) :
    single_pass g b = g := by
  have hp := preserve_single_pass g b
  have hcells : ∀ i j, i < 9 → j < 9 → cell (single_pass g b) i j = cell g i j := by
    intro i j hi hj
    by_cases hzo : cell g i j = 0
    · rcases hp.2.1 i j hi hj hzo with h0 | h19
      · rw [h0, hzo]
      · exfalso
        have hlt := countP_lt_of_witness cells
          (fun p => cell g p.1 p.2 == 0) (fun p => cell (single_pass g b) p.1 p.2 == 0)
          (fun p hp2 hq => ?_) (i, j) (mem_cells.2 ⟨hi, hj⟩) (by simpa using hzo)
          (by simp only [beq_eq_false_iff_ne, ne_eq]; omega)
        · unfold number_of_empty_cells at hz
          omega
        · have hb2 := mem_cells.1 hp2
          rw [beq_iff_eq] at hq ⊢
          by_contra hne
          exact absurd (hp.1 p.1 p.2 hb2.1 hb2.2 hne ▸ hq) hne
    · exact hp.1 i j hi hj hzo
  exact grid_ext hcells hp.2.2

theorem loopBound_le_true {g2 : Grid} {z : Nat} (h : number_of_empty_cells g2 ≤ z) :
    loopBound g2 z true ≤ z := by
  unfold loopBound
  by_cases h0 : number_of_empty_cells g2 = 0
  · rw [if_pos h0]
    exact Nat.zero_le z
  · rw [if_neg h0]
    by_cases h1 : number_of_empty_cells g2 = z
    · rw [if_pos h1, if_pos rfl]
      exact Nat.zero_le z
    · rw [if_neg h1, if_pos rfl]
      omega

theorem loopBound_le_false {g2 : Grid} {z : Nat} (h : number_of_empty_cells g2 ≤ z) :
    loopBound g2 z false ≤ z + 2 := by
  unfold loopBound
  by_cases h0 : number_of_empty_cells g2 = 0
  · rw [if_pos h0]
    omega
  · rw [if_neg h0]
    by_cases h1 : number_of_empty_cells g2 = z
    · rw [if_pos h1, if_neg Bool.false_ne_true]
      omega
    · rw [if_neg h1, if_neg Bool.false_ne_true]
      omega

/-- Within `loopBound` passes (with strictly more fuel available), the loop
reaches a `break`, and `loopBound` bounds the number of passes. -/
theorem loop_halts_bound : ∀ (fuel : Nat) (g : Grid) (prev : Nat) (b : Bool),
    number_of_empty_cells g ≤ prev → loopBound g prev b < fuel →
    solveHalts fuel g prev b = true ∧ solveSteps fuel g prev b ≤ loopBound g prev b := by
  intro fuel
  induction fuel with
  | zero => intro g prev b _ hbd; omega
  | succ n ih =>
    intro g prev b hle hbd
    unfold solveHalts solveSteps
    dsimp only
    by_cases hz0 : number_of_empty_cells g = 0
    · rw [if_pos hz0, if_pos hz0]
      exact ⟨rfl, Nat.zero_le _⟩
    · rw [if_neg hz0, if_neg hz0]
      by_cases hstall : number_of_empty_cells g = prev ∧ b = true
      · rw [if_pos hstall, if_pos hstall]
        exact ⟨rfl, Nat.zero_le _⟩
      · rw [if_neg hstall, if_neg hstall]
        by_cases hzp : number_of_empty_cells g = prev
        · have hbf : b = false := by
            cases hb : b
            · rfl
            · exact absurd ⟨hzp, hb⟩ hstall
          subst hbf
          have hbv : loopBound g prev false = number_of_empty_cells g + 2 := by
            unfold loopBound
            rw [if_neg hz0, if_pos hzp, if_neg Bool.false_ne_true]
          simp only [if_pos hzp]
          have hz2 : number_of_empty_cells (single_pass g true) ≤ number_of_empty_cells g :=
            zeros_mono (preserve_single_pass g true)
          have hb2 : loopBound (single_pass g true) (number_of_empty_cells g) true ≤
              number_of_empty_cells g := loopBound_le_true hz2
          rw [hbv] at hbd ⊢
          obtain ⟨h1, h2⟩ := ih (single_pass g true) (number_of_empty_cells g) true hz2 (by omega)
          exact ⟨h1, by omega⟩
        · simp only [if_neg hzp]
          cases hb : b
          · subst hb
            have hbv : loopBound g prev false = number_of_empty_cells g + 3 := by
              unfold loopBound
              rw [if_neg hz0, if_neg hzp, if_neg Bool.false_ne_true]
            have hz2 : number_of_empty_cells (single_pass g false) ≤ number_of_empty_cells g :=
              zeros_mono (preserve_single_pass g false)
            have hb2 : loopBound (single_pass g false) (number_of_empty_cells g) false ≤
                number_of_empty_cells g + 2 := loopBound_le_false hz2
            rw [hbv] at hbd ⊢
            obtain ⟨h1, h2⟩ :=
              ih (single_pass g false) (number_of_empty_cells g) false hz2 (by omega)
            exact ⟨h1, by omega⟩
          · subst hb
            have hbv : loopBound g prev true = number_of_empty_cells g + 1 := by
              unfold loopBound
              rw [if_neg hz0, if_neg hzp, if_pos rfl]
            have hz2 : number_of_empty_cells (single_pass g true) ≤ number_of_empty_cells g :=
              zeros_mono (preserve_single_pass g true)
            have hb2 : loopBound (single_pass g true) (number_of_empty_cells g) true ≤
                number_of_empty_cells g := loopBound_le_true hz2
            rw [hbv] at hbd ⊢
            obtain ⟨h1, h2⟩ := ih (single_pass g true) (number_of_empty_cells g) true hz2 (by omega)
            exact ⟨h1, by omega⟩

/-- With fuel 85 the loop always breaks, within at most 83 passes. -/
theorem solve_halts_83 (g : Grid) :
    solveHalts 85 g 81 false = true ∧ solveSteps 85 g 81 false ≤ 83 := by
  have hle : number_of_empty_cells g ≤ 81 := zeros_le_81 g
  have hbd : loopBound g 81 false ≤ 83 := by
    unfold loopBound
    split_ifs <;> omega
  obtain ⟨h1, h2⟩ := loop_halts_bound 85 g 81 false hle (by omega)
  exact ⟨h1, by omega⟩

/-- Once the loop halts within some fuel, more fuel does not change the
result. -/
theorem solveLoop_fuel_stable : ∀ (fuel : Nat) (g : Grid) (prev : Nat) (b : Bool),
    solveHalts fuel g prev b = true → ∀ f2, fuel ≤ f2 →
    solveLoop f2 g prev b = solveLoop fuel g prev b := by
  intro fuel
  induction fuel with
  | zero => intro g prev b hh; cases hh
  | succ n ih =>
    intro g prev b hh f2 hf2
    obtain ⟨m, rfl⟩ : ∃ m, f2 = m + 1 := ⟨f2 - 1, by omega⟩
    unfold solveHalts at hh
    unfold solveLoop
    dsimp only at hh ⊢
    by_cases hz0 : number_of_empty_cells g = 0
    · rw [if_pos hz0, if_pos hz0]
    · rw [if_neg hz0] at hh ⊢
      rw [if_neg hz0]
      by_cases hstall : number_of_empty_cells g = prev ∧ b = true
      · rw [if_pos hstall, if_pos hstall]
      · rw [if_neg hstall] at hh ⊢
        rw [if_neg hstall]
        exact ih _ _ _ hh m (by omega)

end SolveSudoku

namespace SolveSudoku

/-- If the loop halts with blank cells remaining, the final grid is a
fixpoint even of a guess-authorized pass: the `break` that gives up fires
exactly when a pass run with `assign_random` set changed nothing. -/
theorem giveup_fix : ∀ (fuel : Nat) (g : Grid) (prev : Nat) (b : Bool),
    (b = true → number_of_empty_cells g = prev → single_pass g true = g) →
    solveHalts fuel g prev b = true →
    number_of_empty_cells (solveLoop fuel g prev b) ≠ 0 →
    single_pass (solveLoop fuel g prev b) true = solveLoop fuel g prev b := by
  intro fuel
  induction fuel with
  | zero => intro g prev b _ hh _; cases hh
  | succ n ih =>
    intro g prev b hinv hh hnz
    unfold solveHalts at hh
    unfold solveLoop at hnz ⊢
    dsimp only at hh hnz ⊢
    by_cases hz0 : number_of_empty_cells g = 0
    · rw [if_pos hz0] at hnz
      exact absurd hz0 hnz
    · rw [if_neg hz0] at hh hnz ⊢
      by_cases hstall : number_of_empty_cells g = prev ∧ b = true
      · rw [if_pos hstall] at hnz ⊢
        exact hinv hstall.2 hstall.1
      · rw [if_neg hstall] at hh hnz ⊢
        refine ih _ _ _ (fun hart hzeq => ?_) hh hnz
        have hfix := single_pass_eq_of_zeros_eq hzeq
        rw [hart] at hfix ⊢
        rw [hfix]
        exact hfix

/-- During the cell sweep, the first blank cell — when it has a nonempty
allowed set — receives the last element of that set, and keeps it. -/
theorem passA_first_blank : ∀ (l : List (Nat × Nat)) (g : Grid) (r c : Nat),
    (∀ p ∈ l, p.1 < 9 ∧ p.2 < 9) →
    l.find? (fun p => cell g p.1 p.2 == 0) = some (r, c) →
    allowed_list g r c ≠ [] →
    cell ((l.foldl passCell (g, true)).1) r c = (allowed_list g r c).getLastD 0 := by
  intro l
  induction l with
  | nil => intro g r c _ hf; cases hf
  | cons q t ih =>
    intro g r c hb hf hal
    rw [List.foldl_cons]
    by_cases hq : cell g q.1 q.2 = 0
    · have hfind : List.find? (fun p => cell g p.1 p.2 == 0) (q :: t) = some q :=
        List.find?_cons_of_pos t (by simpa using hq)
      rw [hfind] at hf
      injection hf with he
      subst he
      have hqb := hb (r, c) (List.mem_cons_self _ t)
      have hpc : passCell (g, true) (r, c) = (select_allowed g r c true, false) := by
        unfold passCell
        rw [if_pos (by simpa using hq)]
      rw [hpc]
      have hlen : 1 ≤ (allowed_list g r c).length := List.length_pos.2 hal
      have hsa : select_allowed g r c true =
          update g r c ((allowed_list g r c).getLastD 0) := by
        unfold select_allowed
        dsimp only
        rw [if_pos (Or.inr ⟨hlen, rfl⟩)]
      have hbounds := allowed_list_mem_bounds (getLastD_mem _ 0 hal)
      have hcellval : cell (update g r c ((allowed_list g r c).getLastD 0)) r c =
          (allowed_list g r c).getLastD 0 := by
        rw [cell_update _ _ _ _ _ _ hbounds.2, if_pos rfl]
      rw [hsa]
      have hpres := preserve_passA t (update g r c ((allowed_list g r c).getLastD 0)) false
        (fun p hp => hb p (List.mem_cons_of_mem _ hp))
      rw [hpres.1 r c hqb.1 hqb.2 (by rw [hcellval]; omega), hcellval]
    · have hf2 : List.find? (fun p => cell g p.1 p.2 == 0) t = some (r, c) := by
        rw [List.find?_cons_of_neg t (by simpa using hq)] at hf
        exact hf
      have hpc : passCell (g, true) q = (g, true) := by
        unfold passCell
        rw [if_neg (by simpa using hq)]
      rw [hpc]
      exact ih g r c (fun p hp => hb p (List.mem_cons_of_mem _ hp)) hf2 hal

/-- Running `single_pass` with guessing authorized assigns, at the first blank cell
of the grid, the last element of that cell's allowed set (when nonempty). -/
theorem single_pass_first_blank {g : Grid} {r c : Nat}
    (hf : firstBlank g = some (r, c)) (hal : allowed_list g r c ≠ []) :
    cell (single_pass g true) r c = (allowed_list g r c).getLastD 0 := by
  have hmem := List.mem_of_find?_eq_some hf
  have hrc := mem_cells.1 hmem
  have h1 := passA_first_blank cells g r c (fun p hp => mem_cells.1 hp) hf hal
  have hbounds := allowed_list_mem_bounds (getLastD_mem _ 0 hal)
  unfold single_pass
  dsimp only
  have hpres := preserve_foldl (fun h num => select_possible h num) (List.range' 1 9)
    ((cells.foldl passCell (g, true)).1) (fun x a ha => by
      rw [List.mem_range'_1] at ha
      exact preserve_select_possible (by omega) (by omega))
  rw [hpres.1 r c hrc.1 hrc.2 (by rw [h1]; omega), h1]

/-- Flag of the first trace entry: guessing is authorized for the first
recorded pass iff the flag was already set or the blank count equals
`prev_zeros`. -/
theorem trace_first_flag : ∀ (fuel : Nat) (g : Grid) (prev : Nat) (b : Bool) (e : Nat × Bool),
    (solveTrace fuel g prev b).head? = some e → e.2 = (b || (e.1 == prev)) := by
  intro fuel
  cases fuel with
  | zero => intro g prev b e he; cases he
  | succ n =>
    intro g prev b e he
    unfold solveTrace at he
    dsimp only at he
    by_cases hz0 : number_of_empty_cells g = 0
    · rw [if_pos hz0] at he; cases he
    · rw [if_neg hz0] at he
      by_cases hstall : number_of_empty_cells g = prev ∧ b = true
      · rw [if_pos hstall] at he; cases he
      · rw [if_neg hstall] at he
        rw [List.head?_cons] at he
        injection he with he2
        subst he2
        by_cases hzp : number_of_empty_cells g = prev
        · simp [hzp]
        · simp [hzp]

/-- Local recurrence of the authorization flag along the trace: each pass is
guess-authorized iff the previous one already was (the flag is never
cleared) or the blank count did not change. -/
theorem trace_adjacent : ∀ (fuel : Nat) (g : Grid) (prev : Nat) (b : Bool) (k : Nat)
    (e1 e2 : Nat × Bool),
    (solveTrace fuel g prev b)[k]? = some e1 →
    (solveTrace fuel g prev b)[k + 1]? = some e2 →
    e2.2 = (e1.2 || (e2.1 == e1.1)) := by
  intro fuel
  induction fuel with
  | zero => intro g prev b k e1 e2 h1; cases h1
  | succ n ih =>
    intro g prev b k e1 e2 h1 h2
    unfold solveTrace at h1 h2
    dsimp only at h1 h2
    by_cases hz0 : number_of_empty_cells g = 0
    · rw [if_pos hz0] at h1; cases h1
    · rw [if_neg hz0] at h1 h2
      by_cases hstall : number_of_empty_cells g = prev ∧ b = true
      · rw [if_pos hstall] at h1; cases h1
      · rw [if_neg hstall] at h1 h2
        cases k with
        | zero =>
          rw [List.getElem?_cons_zero] at h1
          injection h1 with he1
          subst he1
          rw [List.getElem?_cons_succ] at h2
          exact trace_first_flag n _ _ _ e2 (by rw [List.head?_eq_getElem?]; exact h2)
        | succ m =>
          rw [List.getElem?_cons_succ] at h1 h2
          exact ih _ _ _ m e1 e2 h1 h2

/-- The allowed set is listed in strictly increasing order. -/
theorem allowed_list_pairwise (g : Grid) (r c : Nat) :
    (allowed_list g r c).Pairwise (· < ·) :=
  (List.pairwise_lt_range' 1 9).filter _

/-- In a strictly increasing list, the last element is the largest. -/
theorem getLastD_max {l : List Nat} (hp : l.Pairwise (· < ·)) :
    ∀ x ∈ l, x ≤ l.getLastD 0 := by
  induction l with
  | nil => intro x hx; cases hx
  | cons a t ih =>
    rw [List.pairwise_cons] at hp
    intro x hx
    cases t with
    | nil =>
      rcases List.mem_cons.1 hx with rfl | hx2
      · rfl
      · cases hx2
    | cons u v =>
      rw [List.getLastD_cons]
      rcases List.mem_cons.1 hx with rfl | hx2
      · exact le_of_lt (hp.1 _ (getLastD_mem (u :: v) 0 (by simp)))
      · exact ih hp.2 x hx2

end SolveSudoku

namespace SolveSudoku

/-- A fold over a list of operations that all fix the state is the state. -/
theorem foldl_fixpoint {α : Type} (f : Grid → α → Grid) (l : List α) (x : Grid)
    (h : ∀ a ∈ l, f x a = x) : l.foldl f x = x := by
  induction l with
  | nil => rfl
  | cons a t ih =>
    rw [List.foldl_cons, h a (List.mem_cons_self a t)]
    exact ih (fun b hb => h b (List.mem_cons_of_mem a hb))

set_option maxRecDepth 1000000 in
theorem passA_stuck_false : cells.foldl passCell (stuckGrid, false) = (stuckGrid, false) := by
  decide

set_option maxRecDepth 1000000 in
theorem passA_stuck_true : cells.foldl passCell (stuckGrid, true) = (stuckGrid, false) := by
  decide

set_option maxRecDepth 1000000 in
theorem sp_stuck_id : ∀ num ∈ List.range' 1 9, select_possible stuckGrid num = stuckGrid := by
  decide

set_option maxRecDepth 1000000 in
theorem passA_empty_true : cells.foldl passCell (emptyGrid, true) = (9, false) := by
  decide

set_option maxRecDepth 1000000 in
theorem sp_nine_id : ∀ num ∈ List.range' 1 9, select_possible 9 num = 9 := by
  decide

set_option maxRecDepth 1000000 in
theorem passA_rect_true : cells.foldl passCell (rectGrid, true) = (rectGrid + 2, false) := by
  decide

theorem single_pass_stuck (b : Bool) : single_pass stuckGrid b = stuckGrid := by
  unfold single_pass
  dsimp only
  cases b
  · rw [passA_stuck_false]
    exact foldl_fixpoint _ _ _ sp_stuck_id
  · rw [passA_stuck_true]
    exact foldl_fixpoint _ _ _ sp_stuck_id

theorem single_pass_empty_true : single_pass emptyGrid true = 9 := by
  unfold single_pass
  dsimp only
  rw [passA_empty_true]
  exact foldl_fixpoint _ _ _ sp_nine_id


theorem solveLoop_succ (fuel : Nat) (g : Grid) (prev : Nat) (b : Bool) :
    solveLoop (fuel + 1) g prev b =
      if number_of_empty_cells g = 0 then g
      else if number_of_empty_cells g = prev ∧ b = true then g
      else solveLoop fuel
        (single_pass g (if number_of_empty_cells g = prev then true else b))
        (number_of_empty_cells g)
        (if number_of_empty_cells g = prev then true else b) := rfl

theorem solveTrace_succ (fuel : Nat) (g : Grid) (prev : Nat) (b : Bool) :
    solveTrace (fuel + 1) g prev b =
      if number_of_empty_cells g = 0 then []
      else if number_of_empty_cells g = prev ∧ b = true then []
      else (number_of_empty_cells g,
          if number_of_empty_cells g = prev then true else b) :: solveTrace fuel
        (single_pass g (if number_of_empty_cells g = prev then true else b))
        (number_of_empty_cells g)
        (if number_of_empty_cells g = prev then true else b) := rfl

set_option maxRecDepth 100000 in
theorem zeros_stuck : number_of_empty_cells stuckGrid = 72 := by decide

set_option maxRecDepth 100000 in
theorem zeros_nine : number_of_empty_cells 9 = 80 := by decide

theorem solve_stuck : solve stuckGrid = stuckGrid := by
  unfold solve
  rw [show (85 : Nat) = 84 + 1 from rfl, solveLoop_succ, zeros_stuck]
  rw [if_neg (by omega), if_neg (by simp), if_neg (by omega), single_pass_stuck]
  rw [show (84 : Nat) = 83 + 1 from rfl, solveLoop_succ, zeros_stuck]
  rw [if_neg (by omega), if_neg (by simp), if_pos rfl, single_pass_stuck]
  rw [show (83 : Nat) = 82 + 1 from rfl, solveLoop_succ, zeros_stuck]
  rw [if_neg (by omega), if_pos ⟨rfl, rfl⟩]

theorem trace_stuck : solveTrace 85 stuckGrid 81 false = [(72, false), (72, true)] := by
  rw [show (85 : Nat) = 84 + 1 from rfl, solveTrace_succ, zeros_stuck]
  rw [if_neg (by omega), if_neg (by simp), if_neg (by omega), single_pass_stuck]
  rw [show (84 : Nat) = 83 + 1 from rfl, solveTrace_succ, zeros_stuck]
  rw [if_neg (by omega), if_neg (by simp), if_pos rfl, single_pass_stuck]
  rw [show (83 : Nat) = 82 + 1 from rfl, solveTrace_succ, zeros_stuck]
  rw [if_neg (by omega), if_pos ⟨rfl, rfl⟩]

set_option maxRecDepth 100000 in
theorem zeros_empty : number_of_empty_cells emptyGrid = 81 := by decide

set_option maxRecDepth 100000 in
theorem trace_empty_entries :
    (solveTrace 85 emptyGrid 81 false)[0]? = some (81, true) ∧
    (solveTrace 85 emptyGrid 81 false)[1]? = some (80, true) := by
  have hT : solveTrace 85 emptyGrid 81 false
      = (81, true) :: (80, true) :: solveTrace 83 (single_pass 9 true) 80 true := by
    rw [show (85 : Nat) = 84 + 1 from rfl, solveTrace_succ, zeros_empty]
    rw [if_neg (by omega), if_neg (by simp), if_pos rfl, single_pass_empty_true]
    rw [show (84 : Nat) = 83 + 1 from rfl, solveTrace_succ, zeros_nine]
    rw [if_neg (by omega), if_neg (by simp), if_neg (by omega)]
  constructor
  · rw [hT, List.getElem?_cons_zero]
  · rw [hT, List.getElem?_cons_succ, List.getElem?_cons_zero]

set_option maxRecDepth 100000 in
theorem cell_single_pass_rect : cell (single_pass rectGrid true) 0 0 = 2 := by
  unfold single_pass
  dsimp only
  have hfst : (cells.foldl passCell (rectGrid, true)).1 = rectGrid + 2 := by
    rw [passA_rect_true]
  rw [hfst]
  have hpres := preserve_foldl (fun h num => select_possible h num) (List.range' 1 9)
    (rectGrid + 2) (fun x a ha => by
      rw [List.mem_range'_1] at ha
      exact preserve_select_possible (by omega) (by omega))
  have h2 : cell (rectGrid + 2) 0 0 = 2 := by decide
  rw [hpres.1 0 0 (by omega) (by omega) (by rw [h2]; omega), h2]



/-- On a duplicate-free list, a predicate holds at exactly one position iff
it holds of exactly one element. -/
theorem countP_eq_one_iff {α : Type} {l : List α} (hnd : l.Nodup) (p : α → Bool) :
    l.countP p = 1 ↔ ∃! a, a ∈ l ∧ p a = true := by
  rw [List.countP_eq_length_filter]
  constructor
  · intro h
    obtain ⟨a, ha⟩ := List.length_eq_one.1 h
    refine ⟨a, ?_, ?_⟩
    · have hmem : a ∈ l.filter p := by rw [ha]; exact List.mem_singleton_self a
      exact ⟨List.mem_of_mem_filter hmem, List.of_mem_filter hmem⟩
    · intro b hb
      have hmem : b ∈ l.filter p := List.mem_filter.2 ⟨hb.1, hb.2⟩
      rw [ha] at hmem
      simpa using hmem
  · rintro ⟨a, ⟨hal, hap⟩, huniq⟩
    have hmem : a ∈ l.filter p := List.mem_filter.2 ⟨hal, hap⟩
    have hsub : ∀ b ∈ l.filter p, b = a := fun b hb =>
      huniq b ⟨List.mem_of_mem_filter hb, List.of_mem_filter hb⟩
    have hndf : (l.filter p).Nodup := hnd.filter p
    cases hfl : l.filter p with
    | nil => rw [hfl] at hmem; cases hmem
    | cons x t =>
      cases t with
      | nil => rfl
      | cons y t2 =>
        exfalso
        rw [hfl] at hsub hndf
        have hx : x = a := hsub x (List.mem_cons_self _ _)
        have hy : y = a := hsub y (List.mem_cons_of_mem _ (List.mem_cons_self _ _))
        rw [List.nodup_cons] at hndf
        exact hndf.1 (by rw [hx, hy]; exact List.mem_cons_self _ _)

theorem valid_cells_iff (g : Grid) :
    (cells.all (fun p => 1 ≤ cell g p.1 p.2 && cell g p.1 p.2 ≤ 9)) = true ↔
    ∀ i j, i < 9 → j < 9 → 1 ≤ cell g i j ∧ cell g i j ≤ 9 := by
  rw [List.all_eq_true]
  constructor
  · intro h i j hi hj
    have := h (i, j) (mem_cells.2 ⟨hi, hj⟩)
    simpa [Bool.and_eq_true, decide_eq_true_eq] using this
  · intro h p hp
    have hb := mem_cells.1 hp
    simpa [Bool.and_eq_true, decide_eq_true_eq] using h p.1 p.2 hb.1 hb.2

theorem valid_rows_iff (g : Grid) :
    ((List.range 9).all (fun i => (List.range' 1 9).all (fun d =>
      (List.range 9).countP (fun j => cell g i j == d) == 1))) = true ↔
    ∀ i d, i < 9 → 1 ≤ d → d ≤ 9 → ∃! j, j < 9 ∧ cell g i j = d := by
  simp only [List.all_eq_true, List.mem_range, List.mem_range'_1, beq_iff_eq]
  constructor
  · intro h i d hi h1 h9
    have hcount := h i hi d ⟨h1, by omega⟩
    rw [countP_eq_one_iff (List.nodup_range 9)] at hcount
    refine existsUnique_congr (fun j => ?_) |>.1 hcount
    simp [List.mem_range]
  · intro h i hi d hd
    rw [countP_eq_one_iff (List.nodup_range 9)]
    refine existsUnique_congr (fun j => ?_) |>.2 (h i d hi hd.1 (by omega))
    simp [List.mem_range]

theorem valid_cols_iff (g : Grid) :
    ((List.range 9).all (fun j => (List.range' 1 9).all (fun d =>
      (List.range 9).countP (fun i => cell g i j == d) == 1))) = true ↔
    ∀ j d, j < 9 → 1 ≤ d → d ≤ 9 → ∃! i, i < 9 ∧ cell g i j = d := by
  simp only [List.all_eq_true, List.mem_range, List.mem_range'_1, beq_iff_eq]
  constructor
  · intro h j d hj h1 h9
    have hcount := h j hj d ⟨h1, by omega⟩
    rw [countP_eq_one_iff (List.nodup_range 9)] at hcount
    refine existsUnique_congr (fun i => ?_) |>.1 hcount
    simp [List.mem_range]
  · intro h j hj d hd
    rw [countP_eq_one_iff (List.nodup_range 9)]
    refine existsUnique_congr (fun i => ?_) |>.2 (h j d hj hd.1 (by omega))
    simp [List.mem_range]

theorem block_cells_nodup (bi bj : Nat) (hbi : bi = 0 ∨ bi = 3 ∨ bi = 6)
    (hbj : bj = 0 ∨ bj = 3 ∨ bj = 6) :
    ((List.range' bi 3).flatMap (fun k => (List.range' bj 3).map (fun l => (k, l)))).Nodup := by
  rcases hbi with rfl | rfl | rfl <;> rcases hbj with rfl | rfl | rfl <;> decide

theorem mem_block_cells {bi bj : Nat} {p : Nat × Nat} :
    p ∈ (List.range' bi 3).flatMap (fun k => (List.range' bj 3).map (fun l => (k, l))) ↔
    bi ≤ p.1 ∧ p.1 < bi + 3 ∧ bj ≤ p.2 ∧ p.2 < bj + 3 := by
  obtain ⟨x, y⟩ := p
  simp only [List.mem_flatMap, List.mem_map, List.mem_range'_1]
  constructor
  · rintro ⟨a, ha, b, hb, hab⟩
    cases hab
    exact ⟨ha.1, by omega, hb.1, by omega⟩
  · intro ⟨h1, h2, h3, h4⟩
    exact ⟨x, ⟨h1, by omega⟩, y, ⟨h3, by omega⟩, rfl⟩

theorem valid_blocks_iff (g : Grid) :
    (([0, 3, 6] : List Nat).all (fun bi => ([0, 3, 6] : List Nat).all (fun bj =>
      (List.range' 1 9).all (fun d =>
        ((List.range' bi 3).flatMap (fun k =>
          (List.range' bj 3).map (fun l => (k, l)))).countP
            (fun p => cell g p.1 p.2 == d) == 1)))) = true ↔
    ∀ bi bj d, (bi = 0 ∨ bi = 3 ∨ bi = 6) → (bj = 0 ∨ bj = 3 ∨ bj = 6) →
      1 ≤ d → d ≤ 9 →
      ∃! p : Nat × Nat, (bi ≤ p.1 ∧ p.1 < bi + 3 ∧ bj ≤ p.2 ∧ p.2 < bj + 3) ∧
        cell g p.1 p.2 = d := by
  simp only [List.all_eq_true, List.mem_range'_1, beq_iff_eq,
    List.mem_cons, List.mem_singleton]
  constructor
  · intro h bi bj d hbi hbj h1 h9
    have hcount := h bi (by tauto) bj (by tauto) d ⟨h1, by omega⟩
    rw [countP_eq_one_iff (block_cells_nodup bi bj hbi hbj)] at hcount
    refine existsUnique_congr (fun p => ?_) |>.1 hcount
    constructor
    · rintro ⟨hm, hc⟩
      rw [beq_iff_eq] at hc
      exact ⟨mem_block_cells.1 hm, hc⟩
    · rintro ⟨hb2, hc⟩
      exact ⟨mem_block_cells.2 hb2, by rw [beq_iff_eq]; exact hc⟩
  · intro h bi hbi bj hbj d hd
    rw [countP_eq_one_iff (block_cells_nodup bi bj (by tauto) (by tauto))]
    refine existsUnique_congr (fun p => ?_) |>.2 (h bi bj d (by tauto) (by tauto) hd.1 (by omega))
    constructor
    · rintro ⟨hm, hc⟩
      rw [beq_iff_eq] at hc
      exact ⟨mem_block_cells.1 hm, hc⟩
    · rintro ⟨hb2, hc⟩
      exact ⟨mem_block_cells.2 hb2, by rw [beq_iff_eq]; exact hc⟩

theorem valid_iff (g : Grid) : valid g = true ↔ ValidSpec g := by
  unfold valid ValidSpec
  rw [Bool.and_eq_true, Bool.and_eq_true, Bool.and_eq_true,
    valid_cells_iff, valid_rows_iff, valid_cols_iff, valid_blocks_iff]
  tauto


theorem solveSteps_succ (fuel : Nat) (g : Grid) (prev : Nat) (b : Bool) :
    solveSteps (fuel + 1) g prev b =
      if number_of_empty_cells g = 0 then 0
      else if number_of_empty_cells g = prev ∧ b = true then 0
      else solveSteps fuel
        (single_pass g (if number_of_empty_cells g = prev then true else b))
        (number_of_empty_cells g)
        (if number_of_empty_cells g = prev then true else b) + 1 := rfl

theorem allowed_in_block_true_iff (g : Grid) (row col num : Nat) :
    allowed_in_block g row col num = true ↔
    ∀ i j, row - row % 3 ≤ i → i < row - row % 3 + 3 →
      col - col % 3 ≤ j → j < col - col % 3 + 3 →
      i ≠ row → j ≠ col → cell g i j ≠ num := by
  unfold allowed_in_block
  dsimp only
  simp only [List.all_eq_true, List.mem_range'_1]
  constructor
  · intro h i j hi1 hi2 hj1 hj2 hir hjc
    have := h i ⟨hi1, by omega⟩ j ⟨hj1, by omega⟩
    rw [if_pos ⟨hir, hjc⟩] at this
    simpa using this
  · intro h i hi j hj
    by_cases hc : i ≠ row ∧ j ≠ col
    · rw [if_pos hc]
      simpa using h i j hi.1 (by omega) hj.1 (by omega) hc.1 hc.2
    · rw [if_neg hc]


/-! Claim theorems. -/

/-- C1 (counterexample): the claim says a pass is guess-authorized iff the
immediately preceding pass made no progress.  On the empty grid the first
pass is already guess-authorized (blank count 81 equals the initial
`prev_zeros`), it decreases the blank count from 81 to 80, and yet the
second pass is still guess-authorized; the instantiated claim would require
`true = true ↔ 80 = 81`. -/
theorem c1_counterexample :
    ((solveTrace 85 emptyGrid 81 false)[0]? = some (81, true) ∧
     (solveTrace 85 emptyGrid 81 false)[1]? = some (80, true)) ∧
    ¬(true = true ↔ (80 : Nat) = 81) :=
  ⟨trace_empty_entries, by simp⟩

/-- C1 (amended): a pass of `solve` is guess-authorized iff the flag was
already set when the loop started or some pass at or before it observed an
unchanged blank count: the first recorded pass is authorized iff the
initial flag is set or its blank count equals `prev_zeros`, and each later
pass is authorized iff the previous one was (the flag is sticky) or its
blank count equals the previous one's. -/
theorem c1_theorem :
    (∀ (fuel : Nat) (g : Grid) (prev : Nat) (b : Bool) (e : Nat × Bool),
      (solveTrace fuel g prev b).head? = some e → e.2 = (b || (e.1 == prev))) ∧
    (∀ (fuel : Nat) (g : Grid) (prev : Nat) (b : Bool) (k : Nat) (e1 e2 : Nat × Bool),
      (solveTrace fuel g prev b)[k]? = some e1 →
      (solveTrace fuel g prev b)[k + 1]? = some e2 →
      e2.2 = (e1.2 || (e2.1 == e1.1))) :=
  ⟨trace_first_flag, trace_adjacent⟩

/-- C1 witness: the flag recurrence evaluated on the empty grid's first two
trace entries. -/
theorem c1_witness :
    ((80, true) : Nat × Bool).2 = (((81, true) : Nat × Bool).2 ||
      (((80, true) : Nat × Bool).1 == ((81, true) : Nat × Bool).1)) :=
  c1_theorem.2 85 emptyGrid 81 false 0 (81, true) (80, true)
    trace_empty_entries.1 trace_empty_entries.2

set_option maxRecDepth 100000 in
/-- C2 (code evaluated at the failing input): on `rectGrid` the
guess-authorized pass reaches its first blank cell (0,0), whose allowed set
is `[1, 2]`, and deterministically stores 2 — the largest allowed number —
rather than consulting any random-candidate-selection capability. -/
theorem c2_theorem :
    allowed_list rectGrid 0 0 = [1, 2] ∧ cell (single_pass rectGrid true) 0 0 = 2 :=
  ⟨by decide, cell_single_pass_rect⟩

/-- C3 (counterexample): on the empty grid (81 blanks) the very first pass
of `solve` already runs with guessing authorized — `prev_zeros` starts at
81, which matches the initial blank count — and it places the digit 9 at
cell (0,0). -/
theorem c3_counterexample :
    (solveTrace 85 emptyGrid 81 false).head? = some (81, true) ∧
    cell (single_pass emptyGrid true) 0 0 = 9 := by
  constructor
  · rw [List.head?_eq_getElem?]
    exact trace_empty_entries.1
  · rw [single_pass_empty_true]
    decide

/-- C3 (amended): for every input grid with at least one non-blank cell and
at least one blank cell, the first deduction pass executed by `solve` runs
with guessing disabled; only the 81-blank (empty) grid trips the initial
`prev_zeros = 81` comparison and starts with guessing enabled. -/
theorem c3_theorem : ∀ (g : Grid) (i j : Nat), i < 9 → j < 9 → cell g i j ≠ 0 →
    number_of_empty_cells g ≠ 0 →
    (solveTrace 85 g 81 false).head? = some (number_of_empty_cells g, false) := by
  intro g i j hi hj hnz hz0
  have h81 : cells.countP (fun _ => true) = 81 := by decide
  have hlt := countP_lt_of_witness cells (fun _ => true) (fun p => cell g p.1 p.2 == 0)
    (fun a _ _ => rfl) (i, j) (mem_cells.2 ⟨hi, hj⟩) rfl (by simpa using hnz)
  have hne81 : number_of_empty_cells g ≠ 81 := by
    unfold number_of_empty_cells
    omega
  rw [show (85 : Nat) = 84 + 1 from rfl, solveTrace_succ, if_neg hz0,
    if_neg (by simp), if_neg hne81, List.head?_cons]

set_option maxRecDepth 100000 in
/-- C3 witness: on `stuckGrid` (which has non-blank cells and 72 blanks)
the first pass runs with guessing disabled. -/
theorem c3_witness :
    (solveTrace 85 stuckGrid 81 false).head? = some (number_of_empty_cells stuckGrid, false) :=
  c3_theorem stuckGrid 0 1 (by omega) (by omega) (by decide) (by rw [zeros_stuck]; omega)

set_option maxRecDepth 100000 in
/-- C4 (counterexample): `solve` gives up on `stuckGrid` with 72 blank
cells remaining, and the blank cell (1,1) of the final grid still has the
six legal candidates 3..8 — not zero candidates as the claim requires of
every blank cell at give-up. -/
theorem c4_counterexample :
    number_of_empty_cells (solve stuckGrid) = 72 ∧
    cell (solve stuckGrid) 1 1 = 0 ∧
    allowed_list (solve stuckGrid) 1 1 = [3, 4, 5, 6, 7, 8] :=
  ⟨by rw [solve_stuck]; exact zeros_stuck, by rw [solve_stuck]; decide,
   by rw [solve_stuck]; decide⟩

/-- C4 (amended): whenever `solve` gives up (terminates with blank cells
remaining), the final grid is a fixpoint even of a guess-authorized pass,
and the first blank cell in row-major order — the only cell the pass's
single guess authorization ever reaches — has zero legal candidates; blank
cells other than the first may retain candidates. -/
theorem c4_theorem : ∀ g : Grid, number_of_empty_cells (solve g) ≠ 0 →
    single_pass (solve g) true = solve g ∧
    (∀ r c, firstBlank (solve g) = some (r, c) → allowed_list (solve g) r c = []) := by
  intro g hnz
  have hh := (solve_halts_83 g).1
  have hfix : single_pass (solve g) true = solve g :=
    giveup_fix 85 g 81 false (fun hb _ => by cases hb) hh hnz
  refine ⟨hfix, fun r c hf => ?_⟩
  by_contra hal
  have h1 := single_pass_first_blank hf hal
  rw [hfix] at h1
  have hz0 := List.find?_some hf
  rw [beq_iff_eq] at hz0
  have hz : cell (solve g) r c = 0 := hz0
  have hb := allowed_list_mem_bounds (getLastD_mem _ 0 hal)
  omega

set_option maxRecDepth 100000 in
/-- C4 witness: on `stuckGrid`, `solve` gives up; the result absorbs a
further guess-authorized pass and its first blank cell (0,0) allows no
number. -/
theorem c4_witness :
    single_pass (solve stuckGrid) true = solve stuckGrid ∧
    allowed_list (solve stuckGrid) 0 0 = [] := by
  have h := c4_theorem stuckGrid (by rw [solve_stuck, zeros_stuck]; omega)
  exact ⟨h.1, h.2 0 0 (by rw [solve_stuck]; decide)⟩

/-- C5: the validator returns `true` iff every cell holds a number 1..9 and
every row, column and block contains each number exactly once; any blank
(zero) cell forces a `false` result. -/
theorem c5_theorem : ∀ g : Grid, (valid g = true ↔ ValidSpec g) ∧
    (∀ i j, i < 9 → j < 9 → cell g i j = 0 → valid g = false) := by
  intro g
  refine ⟨valid_iff g, fun i j hi hj hz => ?_⟩
  cases hv : valid g
  · rfl
  · exfalso
    have := ((valid_iff g).1 hv).1 i j hi hj
    omega

set_option maxRecDepth 100000 in
/-- C5 witness: the validator characterization on the completed `fullGrid`,
and rejection of the all-blank grid. -/
theorem c5_witness : (valid fullGrid = true ↔ ValidSpec fullGrid) ∧ valid emptyGrid = false :=
  ⟨(c5_theorem fullGrid).1, (c5_theorem emptyGrid).2 0 0 (by omega) (by omega) (by decide)⟩

/-- C6: for every input grid, the solve loop reaches a `break` (with fuel
85), executes at most 83 deduction passes, and giving it any more fuel does
not change the result — the C loop, which carries no fuel, terminates. -/
theorem c6_theorem : ∀ g : Grid, solveHalts 85 g 81 false = true ∧ solvePasses g ≤ 83 ∧
    (∀ fuel, 85 ≤ fuel → solveLoop fuel g 81 false = solve g) := by
  intro g
  obtain ⟨h1, h2⟩ := solve_halts_83 g
  exact ⟨h1, h2, fun fuel hf => solveLoop_fuel_stable 85 g 81 false h1 fuel hf⟩

/-- C6 witness: the termination bound applied to `fullGrid`, with fuel
100. -/
theorem c6_witness : solveHalts 85 fullGrid 81 false = true ∧ solvePasses fullGrid ≤ 83 ∧
    solveLoop 100 fullGrid 81 false = solve fullGrid :=
  ⟨(c6_theorem fullGrid).1, (c6_theorem fullGrid).2.1, (c6_theorem fullGrid).2.2 100 (by omega)⟩

/-- C7: for `row, col` in [0,9) and a number 1..9, `allowed_in_block`
returns `false` iff the number appears at some cell (i,j) of the 3×3 block
containing (row,col) with `i ≠ row` and `j ≠ col`; moreover the result
never depends on block cells sharing the row index or column index of
(row,col): any grid agreeing on the other block cells yields the same
answer. -/
theorem c7_theorem : ∀ (g : Grid) (row col num : Nat), row < 9 → col < 9 →
    1 ≤ num → num ≤ 9 →
    ((allowed_in_block g row col num = false ↔
      ∃ i j, row - row % 3 ≤ i ∧ i < row - row % 3 + 3 ∧ col - col % 3 ≤ j ∧
        j < col - col % 3 + 3 ∧ i ≠ row ∧ j ≠ col ∧ cell g i j = num) ∧
     (∀ g2 : Grid, (∀ i j, row - row % 3 ≤ i → i < row - row % 3 + 3 →
        col - col % 3 ≤ j → j < col - col % 3 + 3 → i ≠ row → j ≠ col →
        cell g2 i j = cell g i j) →
      allowed_in_block g2 row col num = allowed_in_block g row col num)) := by
  intro g row col num _ _ _ _
  constructor
  · constructor
    · intro hfalse
      have hne : ¬ allowed_in_block g row col num = true := by
        rw [hfalse]
        exact Bool.false_ne_true
      rw [allowed_in_block_true_iff] at hne
      push_neg at hne
      exact hne
    · rintro ⟨i, j, h1, h2, h3, h4, h5, h6, h7⟩
      cases hb : allowed_in_block g row col num
      · rfl
      · exact absurd h7 ((allowed_in_block_true_iff g row col num).1 hb i j h1 h2 h3 h4 h5 h6)
  · intro g2 hagree
    rw [Bool.eq_iff_iff, allowed_in_block_true_iff, allowed_in_block_true_iff]
    constructor
    · intro h i j h1 h2 h3 h4 h5 h6
      rw [← hagree i j h1 h2 h3 h4 h5 h6]
      exact h i j h1 h2 h3 h4 h5 h6
    · intro h i j h1 h2 h3 h4 h5 h6
      rw [hagree i j h1 h2 h3 h4 h5 h6]
      exact h i j h1 h2 h3 h4 h5 h6

/-- C7 witness: the block characterization at `fullGrid`, cell (0,0),
number 5. -/
theorem c7_witness :
    ((allowed_in_block fullGrid 0 0 5 = false ↔
      ∃ i j, 0 - 0 % 3 ≤ i ∧ i < 0 - 0 % 3 + 3 ∧ 0 - 0 % 3 ≤ j ∧
        j < 0 - 0 % 3 + 3 ∧ i ≠ 0 ∧ j ≠ 0 ∧ cell fullGrid i j = 5) ∧
     (∀ g2 : Grid, (∀ i j, 0 - 0 % 3 ≤ i → i < 0 - 0 % 3 + 3 →
        0 - 0 % 3 ≤ j → j < 0 - 0 % 3 + 3 → i ≠ 0 → j ≠ 0 →
        cell g2 i j = cell fullGrid i j) →
      allowed_in_block g2 0 0 5 = allowed_in_block fullGrid 0 0 5)) :=
  c7_theorem fullGrid 0 0 5 (by omega) (by omega) (by omega) (by omega)

/-- C8: an input with zero blank cells makes `solve` return immediately:
the grid is unchanged and no deduction pass runs. -/
theorem c8_theorem : ∀ g : Grid, number_of_empty_cells g = 0 →
    solve g = g ∧ solvePasses g = 0 := by
  intro g hz
  constructor
  · unfold solve
    rw [show (85 : Nat) = 84 + 1 from rfl, solveLoop_succ, if_pos hz]
  · unfold solvePasses
    rw [show (85 : Nat) = 84 + 1 from rfl, solveSteps_succ, if_pos hz]

set_option maxRecDepth 100000 in
/-- C8 witness: `solve` leaves the completed `fullGrid` unchanged after
zero passes. -/
theorem c8_witness : solve fullGrid = fullGrid ∧ solvePasses fullGrid = 0 :=
  c8_theorem fullGrid (by decide)

/-- C9: `solve` is a pure function — equal inputs give equal outputs — and
a guess stores the last (= largest) element of the allowed list: with the
flag set, `select_allowed` on a cell with a nonempty allowed set writes
exactly `getLastD` of that list, which bounds every allowed number. -/
theorem c9_theorem :
    (∀ g1 g2 : Grid, g1 = g2 → solve g1 = solve g2) ∧
    (∀ (g : Grid) (r c : Nat), allowed_list g r c ≠ [] →
      select_allowed g r c true = update g r c ((allowed_list g r c).getLastD 0) ∧
      ∀ x ∈ allowed_list g r c, x ≤ (allowed_list g r c).getLastD 0) := by
  refine ⟨fun g1 g2 h => by rw [h], fun g r c hal => ⟨?_, ?_⟩⟩
  · unfold select_allowed
    dsimp only
    rw [if_pos (Or.inr ⟨List.length_pos.2 hal, rfl⟩)]
  · exact getLastD_max (allowed_list_pairwise g r c)

set_option maxRecDepth 100000 in
/-- C9 witness: on `rectGrid` at (0,0) the guess writes the last allowed
number, which is at least the allowed number 2. -/
theorem c9_witness :
    solve rectGrid = solve rectGrid ∧
    select_allowed rectGrid 0 0 true =
      update rectGrid 0 0 ((allowed_list rectGrid 0 0).getLastD 0) ∧
    2 ≤ (allowed_list rectGrid 0 0).getLastD 0 :=
  ⟨c9_theorem.1 rectGrid rectGrid rfl, (c9_theorem.2 rectGrid 0 0 (by decide)).1,
   (c9_theorem.2 rectGrid 0 0 (by decide)).2 2 (by decide)⟩

/-- C10: `solve` never changes a non-blank cell, and a blank cell either
stays blank or ends up holding a value 1..9. -/
theorem c10_theorem : ∀ g : Grid,
    (∀ i j, i < 9 → j < 9 → cell g i j ≠ 0 → cell (solve g) i j = cell g i j) ∧
    (∀ i j, i < 9 → j < 9 → cell g i j = 0 →
      cell (solve g) i j = 0 ∨ (1 ≤ cell (solve g) i j ∧ cell (solve g) i j ≤ 9)) := by
  intro g
  exact ⟨(preserve_solveLoop 85 g 81 false).1, (preserve_solveLoop 85 g 81 false).2.1⟩

set_option maxRecDepth 100000 in
/-- C10 witness: the pre-filled cell (0,0) of `fullGrid` is unchanged by
`solve`. -/
theorem c10_witness : cell (solve fullGrid) 0 0 = cell fullGrid 0 0 :=
  (c10_theorem fullGrid).1 0 0 (by omega) (by omega) (by decide)

end SolveSudoku
